import Mathlib

/-!
Verification of the `prefer-function-type` lint rule
(`packages/eslint-plugin/src/rules/prefer-function-type.ts`).

The rule walks a TypeScript syntax tree and, for a named interface or an
anonymous object-type literal whose sole member is a call / construct
signature carrying a return-type annotation, reports a diagnostic together
with a text edit that rewrites the construct into a function-type
expression.

Shallow embedding conventions:
* Source text is a `List Char`; all node ranges are half-open `Nat` pairs
  of offsets into that text, exactly as in the ESTree `range` fields.
* JavaScript `String.prototype.slice` is `jsSlice` / `jsSliceFrom`;
  `String.prototype.replace` with a string pattern (first occurrence only)
  is `replaceFirst`.
* Fallible JavaScript (a property access on `undefined`, `filter(...)[0]`
  on an empty result) is modelled with `Option` / the `Outcome.crash`
  constructor: `none`/`crash` marks exactly the places where the original
  code would throw a `TypeError`.
* The TSESTree node kind `TSTypeAnnotation` is rendered here as the
  constructor `TSNode.typeAnn` (carrying its range and the wrapped type),
  and `TSThisType`, `TSTypeReference`, `TSFunctionType` keep their names in
  shortened form.  A `TSFunctionType`'s return type is always present in a
  parsed tree (the grammar requires the trailing arrow type), so it is a
  plain field.
-/

/-- JavaScript `s.slice(a, b)` for `0 ≤ a ≤ b` within bounds. -/
def jsSlice (s : List Char) (a b : Nat) : List Char :=
  (s.take b).drop a

/-- JavaScript `s.slice(a)`. -/
def jsSliceFrom (s : List Char) (a : Nat) : List Char :=
  s.drop a

/-- Whether `pat` occurs at the head of `s`. -/
def listStartsWith : List Char → List Char → Bool
  | _, [] => true
  | [], _ :: _ => false
  | c :: cs, p :: ps => c == p && listStartsWith cs ps

/-- JavaScript `s.replace(pat, rep)` with a string pattern: replace the
first occurrence of `pat` in `s` by `rep`; if `pat` does not occur, `s` is
returned unchanged. -/
def replaceFirst (s pat rep : List Char) : List Char :=
  match s with
  | [] => []
  | c :: cs =>
    if listStartsWith (c :: cs) pat then rep ++ (c :: cs).drop pat.length
    else c :: replaceFirst cs pat rep

/-- The type-side nodes `getReturnType` can meet.  `typeAnn` models a
`TSTypeAnnotation` node (the `: T` wrapper); `functionType` models
`TSFunctionType` whose `returnType` field is its return `TSTypeAnnotation`
node; `otherType` covers every remaining type node kind. -/
inductive TSNode where
  | thisType (range : Nat × Nat)
  | typeRef (range : Nat × Nat)
  | functionType (range : Nat × Nat) (returnType : TSNode)
  | typeAnn (range : Nat × Nat) (inner : TSNode)
  | otherType (kind : String) (range : Nat × Nat)
deriving DecidableEq

/-- The `range` field shared by every node. -/
def TSNode.range : TSNode → Nat × Nat
  | TSNode.thisType r => r
  | TSNode.typeRef r => r
  | TSNode.functionType r _ => r
  | TSNode.typeAnn r _ => r
  | TSNode.otherType _ r => r

/-- JavaScript `node.typeAnnotation` on a node expected to be a
`TSTypeAnnotation`: `none` when the node has no such field, in which case
the original code goes on to fault on the resulting `undefined`. -/
def TSNode.inner? : TSNode → Option TSNode
  | TSNode.typeAnn _ t => some t
  | _ => none

/-- The `possibleReturnThisTypeHolders` set of the rule: node kinds that may
hold a resolvable self (`this`) return type. -/
def possibleReturnThisTypeHolders (n : TSNode) : Bool :=
  match n with
  | TSNode.typeRef _ => true
  | TSNode.thisType _ => true
  | TSNode.functionType _ _ => true
  | TSNode.typeAnn _ _ => true
  | TSNode.otherType _ _ => false

/-- `getReturnType` of the rule: the range of the `this` token used as a
type, or `none`.  A `TSThisType` yields its own range; a `TSTypeAnnotation`
yields its inner `this` range when the wrapped type is directly a
`TSThisType` (anything else falls through the remaining tests to
`return null`); a `TSFunctionType` recurses into its return-type
annotation; a `TSTypeReference`, though a member of the holder set, matches
no branch and yields `null`. -/
def getReturnType (node : TSNode) : Option (Nat × Nat) :=
  if !possibleReturnThisTypeHolders node then none
  else
    match node with
    | TSNode.thisType r => some r
    | TSNode.typeAnn _ t =>
      match t with
      | TSNode.thisType r => some r
      | _ => none
    | TSNode.functionType _ rt => getReturnType rt
    | _ => none

/-- A function parameter: only its optional type annotation matters to the
rule (`param.typeAnnotation`). -/
structure Param where
  typeAnnot : Option TSNode
deriving DecidableEq

/-- JavaScript
`param.typeAnnotation?.typeAnnotation?.type === AST_NODE_TYPES.TSThisType`. -/
def paramHasThisType (p : Param) : Bool :=
  match p.typeAnnot with
  | some (TSNode.typeAnn _ (TSNode.thisType _)) => true
  | _ => false

/-- The discriminant of an interface-body / type-literal member. -/
inductive MemberKind where
  | TSCallSignatureDeclaration
  | TSConstructSignatureDeclaration
  | otherMember (kind : String)
deriving DecidableEq

/-- A `TypeElement` member: kind, range, parameters and the optional
return-type annotation node. -/
structure TypeElement where
  kind : MemberKind
  range : Nat × Nat
  params : List Param
  returnType : Option TSNode
deriving DecidableEq

/-- The `extends` heritage expression: either an `Identifier` with a name,
or some other expression kind. -/
inductive ExprKind where
  | Identifier (name : String)
  | otherExpr (kind : String)
deriving DecidableEq

/-- One `extends` clause of an interface. -/
structure HeritageClause where
  expression : ExprKind
deriving DecidableEq

/-- An identifier node with its name and range. -/
structure Ident where
  name : String
  range : Nat × Nat
deriving DecidableEq

/-- The node kind of the syntactic parent of the construct under analysis
(`parent.parent` in `renderSuggestion`); `none` models a missing parent. -/
inductive ParentType where
  | TSUnionType
  | TSIntersectionType
  | TSArrayType
  | otherParent (kind : String)
deriving DecidableEq

/-- A `TSInterfaceDeclaration` node.  `body` flattens the intermediate
`TSInterfaceBody` (`node.body.body` in the source); `typeParameters` keeps
only the range of the type-parameter list, the sole datum the rule slices;
`parentType` is the node kind of its syntactic parent. -/
structure TSInterfaceDeclaration where
  range : Nat × Nat
  id : Ident
  typeParameters : Option (Nat × Nat)
  extendsClauses : List HeritageClause
  body : List TypeElement
  parentType : Option ParentType
deriving DecidableEq

/-- A `TSTypeLiteral` node. -/
structure TSTypeLiteralNode where
  range : Nat × Nat
  members : List TypeElement
  parentType : Option ParentType
deriving DecidableEq

/-- The enclosing node handed to `checkMember` / `renderSuggestion` as
`node` / `parent`. -/
inductive EnclosingNode where
  | interfaceDecl (d : TSInterfaceDeclaration)
  | typeLiteral (l : TSTypeLiteralNode)
deriving DecidableEq

/-- JavaScript `parent.id`: present on an interface declaration, absent
(`undefined`) on a type literal. -/
def parentIdOf : EnclosingNode → Option Ident
  | EnclosingNode.interfaceDecl d => some d.id
  | EnclosingNode.typeLiteral _ => none

/-- The node kind of `parent.parent`. -/
def parentTypeOf : EnclosingNode → Option ParentType
  | EnclosingNode.interfaceDecl d => d.parentType
  | EnclosingNode.typeLiteral l => l.parentType

/-- The `range` of the enclosing node. -/
def rangeOf : EnclosingNode → Nat × Nat
  | EnclosingNode.interfaceDecl d => d.range
  | EnclosingNode.typeLiteral l => l.range

/-- `hasOneSupertype` of the rule: `false` when there are no extends
clauses; `true` when there are two or more; with exactly one, `true` iff
its expression is not the bare identifier `Function`. -/
def hasOneSupertype (node : TSInterfaceDeclaration) : Bool :=
  match node.extendsClauses with
  | [] => false
  | [e] =>
    match e.expression with
    | ExprKind.Identifier nm => nm != "Function"
    | ExprKind.otherExpr _ => true
  | _ :: _ :: _ => true

/-- `shouldWrapSuggestion` of the rule: wrap iff the parent exists and is a
union, intersection or array type. -/
def shouldWrapSuggestion : Option ParentType → Bool
  | none => false
  | some ParentType.TSUnionType => true
  | some ParentType.TSIntersectionType => true
  | some ParentType.TSArrayType => true
  | some (ParentType.otherParent _) => false

/-- The return-position self-type substitution step of `renderSuggestion`:
when `getReturnType` resolved a range and its source slice is literally
`this`, execute `rhs.replace('this', parent.id.name)` — which faults
(`none`) when the parent has no `id`.  (The source also tests
`returnType.length === 2`, which holds of every range.) -/
def substThisReturn (src : List Char) (returnTy : Option (Nat × Nat))
    (id? : Option Ident) (rhs : List Char) : Option (List Char) :=
  match returnTy with
  | some r =>
    if jsSlice src r.1 r.2 = "this".toList then
      match id? with
      | some nm => some (replaceFirst rhs ("this".toList) (nm.name.toList))
      | none => none
    else some rhs
  | none => some rhs

/-- The parameter loop of `renderSuggestion`: for each parameter whose
declared type is exactly the self type, `lhs = lhs.replace('this',
parent.id.name)` — faulting (`none`) at the first such parameter when the
parent has no `id`.  (The source guards the loop with
`call.params.length > 0`, a no-op refinement.) -/
def substThisParams (id? : Option Ident) :
    List Param → List Char → Option (List Char)
  | [], lhs => some lhs
  | p :: ps, lhs =>
    if paramHasThisType p then
      match id? with
      | some nm =>
        substThisParams id? ps (replaceFirst lhs ("this".toList) (nm.name.toList))
      | none => none
    else substThisParams id? ps lhs

/-- `renderSuggestion` of the rule.  `none` marks the fault paths of the
original: `call.returnType!` on a missing annotation (excluded by
`checkMember`), `call.returnType?.typeAnnotation` handing `undefined` to
`getReturnType`, and `parent.id.name` with `id` absent. -/
def renderSuggestion (src : List Char) (call : TypeElement)
    (parent : EnclosingNode) : Option (List Char) :=
  match call.returnType with
  | none => none
  | some rtAnn =>
    match TSNode.inner? rtAnn with
    | none => none
    | some innerTy =>
      let start := call.range.1
      let colonPos := (TSNode.range rtAnn).1 - start
      let text := jsSlice src start call.range.2
      let lhs := jsSlice text 0 colonPos
      let rhs := jsSliceFrom text (colonPos + 1)
      match substThisReturn src (getReturnType innerTy) (parentIdOf parent) rhs with
      | none => none
      | some rhs2 =>
        match substThisParams (parentIdOf parent) call.params lhs with
        | none => none
        | some lhs2 =>
          let sug :=
            if shouldWrapSuggestion (parentTypeOf parent) then
              ('(' :: (lhs2 ++ " =>".toList ++ rhs2)) ++ [')']
            else lhs2 ++ " =>".toList ++ rhs2
          match parent with
          | EnclosingNode.interfaceDecl d =>
            match d.typeParameters with
            | some tpr =>
              some ("type ".toList ++ jsSlice src d.id.range.1 tpr.2
                ++ " = ".toList ++ sug)
            | none =>
              some ("type ".toList ++ d.id.name.toList ++ " = ".toList ++ sug)
          | EnclosingNode.typeLiteral _ =>
            some (if sug.getLast? = some ';' then sug.dropLast else sug)

/-- A lexical token as returned by `sourceCode.getTokens(node)`. -/
inductive TokenType where
  | Keyword
  | otherToken (kind : String)
deriving DecidableEq

/-- A token: its type, text and range. -/
structure Token where
  tokType : TokenType
  value : String
  range : Nat × Nat
deriving DecidableEq

/-- JavaScript
`getTokens(node).filter(t => t.type === Keyword && t.value === 'interface')[0].range[0]`,
as an `Option`: `none` when no token matches (the original faults there). -/
def interfaceKeywordStart (tokens : List Token) : Option Nat :=
  ((tokens.filter fun t =>
      t.tokType == TokenType.Keyword && t.value == "interface").head?).map
    (fun t => t.range.1)

/-- The diagnostic reported on a match: the `data.type` label, the
suggestion interpolated into the message, and the fix range/text. -/
structure Diagnostic where
  typeLabel : String
  sigSuggestion : List Char
  fixRange : Nat × Nat
  fixText : List Char
deriving DecidableEq

/-- The outcome of running a handler on one node: a thrown `TypeError`
(`crash`), silence, or one reported diagnostic. -/
inductive Outcome where
  | crash
  | noReport
  | report (d : Diagnostic)
deriving DecidableEq

/-- Whether an outcome is a reported diagnostic. -/
def isReport : Outcome → Bool
  | Outcome.report _ => true
  | _ => false

/-- The member guard of `checkMember`: a call or construct signature whose
`returnType` is present. -/
def qualifyingMember (member : TypeElement) : Bool :=
  (member.kind == MemberKind.TSCallSignatureDeclaration
    || member.kind == MemberKind.TSConstructSignatureDeclaration)
  && member.returnType.isSome

/-- `checkMember` of the rule: on a qualifying member, render the
suggestion (first, as in the source), locate the fix start (the literal's
own start, or the `interface` keyword token), and report with the fix range
running to the end of the enclosing node. -/
def checkMember (src : List Char) (tokens : List Token)
    (member : TypeElement) (node : EnclosingNode) : Outcome :=
  if qualifyingMember member then
    match renderSuggestion src member node with
    | none => Outcome.crash
    | some suggestion =>
      match
        (match node with
         | EnclosingNode.typeLiteral l => some l.range.1
         | EnclosingNode.interfaceDecl _ => interfaceKeywordStart tokens) with
      | none => Outcome.crash
      | some fixStart =>
        Outcome.report
          { typeLabel :=
              match node with
              | EnclosingNode.typeLiteral _ => "Type literal"
              | EnclosingNode.interfaceDecl _ => "Interface"
            sigSuggestion := suggestion
            fixRange := (fixStart, (rangeOf node).2)
            fixText := suggestion }
  else Outcome.noReport

/-- The `TSInterfaceDeclaration` visitor:
`if (!hasOneSupertype(node) && node.body.body.length === 1)
   checkMember(node.body.body[0], node)`. -/
def tsInterfaceDeclarationHandler (src : List Char) (tokens : List Token)
    (node : TSInterfaceDeclaration) : Outcome :=
  if !hasOneSupertype node then
    match node.body with
    | [m] => checkMember src tokens m (EnclosingNode.interfaceDecl node)
    | _ => Outcome.noReport
  else Outcome.noReport

/-- The `TSTypeLiteral[members.length = 1]` visitor: the selector restricts
to literals with exactly one member, and `checkMember(node.members[0],
node)` runs on them.  (The interface-keyword token scan is unreachable
here, so no token list is consulted.) -/
def tsTypeLiteralHandler (src : List Char) (node : TSTypeLiteralNode) : Outcome :=
  match node.members with
  | [m] => checkMember src [] m (EnclosingNode.typeLiteral node)
  | _ => Outcome.noReport

/-!
Concrete inputs.  Each `cN...` family encodes the syntax tree the
TypeScript parser produces for the source text shown in its comment, with
the exact character ranges of that text.
-/

/-- Source text `interface Foo { (): void }`. -/
def c1src : List Char := "interface Foo \x7b (): void \x7d".toList

/-- The call signature `(): void` at range `[16, 24)` with return-type
annotation `: void` at `[18, 24)`. -/
def c1member : TypeElement :=
  { kind := MemberKind.TSCallSignatureDeclaration
    range := (16, 24)
    params := []
    returnType := some (TSNode.typeAnn (18, 24)
      (TSNode.otherType ("TSVoidKeyword") (20, 24))) }

/-- The declaration `interface Foo { (): void }`: no extends clauses, one
call-signature member. -/
def c1node : TSInterfaceDeclaration :=
  { range := (0, 26)
    id := { name := "Foo", range := (10, 13) }
    typeParameters := none
    extendsClauses := []
    body := [c1member]
    parentType := some (ParentType.otherParent ("Program")) }

/-- Tokens of `c1node`, led by the `interface` keyword at `[0, 9)`. -/
def c1tokens : List Token :=
  [ { tokType := TokenType.Keyword, value := "interface", range := (0, 9) },
    { tokType := TokenType.otherToken ("Identifier"), value := "Foo",
      range := (10, 13) } ]

/-- Source text `interface Foo extends Bar { (): void }`. -/
def c2src : List Char :=
  "interface Foo extends Bar \x7b (): void \x7d".toList

/-- The call signature `(): void` at range `[28, 36)`. -/
def c2member : TypeElement :=
  { kind := MemberKind.TSCallSignatureDeclaration
    range := (28, 36)
    params := []
    returnType := some (TSNode.typeAnn (30, 36)
      (TSNode.otherType ("TSVoidKeyword") (32, 36))) }

/-- The extends clause `extends Bar`. -/
def c2heritage : HeritageClause := { expression := ExprKind.Identifier ("Bar") }

/-- The declaration `interface Foo extends Bar { (): void }`. -/
def c2node : TSInterfaceDeclaration :=
  { range := (0, 38)
    id := { name := "Foo", range := (10, 13) }
    typeParameters := none
    extendsClauses := [c2heritage]
    body := [c2member]
    parentType := some (ParentType.otherParent ("Program")) }

/-- Tokens of `c2node`, led by the `interface` keyword at `[0, 9)`. -/
def c2tokens : List Token :=
  [ { tokType := TokenType.Keyword, value := "interface", range := (0, 9) },
    { tokType := TokenType.otherToken ("Identifier"), value := "Foo",
      range := (10, 13) },
    { tokType := TokenType.Keyword, value := "extends", range := (14, 21) } ]

/-- Source text `type X = { (x: this): void }`. -/
def c3src : List Char := "type X = \x7b (x: this): void \x7d".toList

/-- The call signature `(x: this): void` at range `[11, 26)`; the parameter
`x` is annotated `: this` at `[13, 19)` wrapping the `this` token at
`[15, 19)`. -/
def c3member : TypeElement :=
  { kind := MemberKind.TSCallSignatureDeclaration
    range := (11, 26)
    params := [ { typeAnnot := some (TSNode.typeAnn (13, 19)
        (TSNode.thisType (15, 19))) } ]
    returnType := some (TSNode.typeAnn (20, 26)
      (TSNode.otherType ("TSVoidKeyword") (22, 26))) }

/-- The literal `{ (x: this): void }` at range `[9, 28)`, sitting inside a
type-alias declaration. -/
def c3lit : TSTypeLiteralNode :=
  { range := (9, 28)
    members := [c3member]
    parentType := some (ParentType.otherParent ("TSTypeAliasDeclaration")) }

/-- Source text `type X = { (): this }`. -/
def c4src : List Char := "type X = \x7b (): this \x7d".toList

/-- The call signature `(): this` at range `[11, 19)` with return type
`this` at `[15, 19)`. -/
def c4member : TypeElement :=
  { kind := MemberKind.TSCallSignatureDeclaration
    range := (11, 19)
    params := []
    returnType := some (TSNode.typeAnn (13, 19) (TSNode.thisType (15, 19))) }

/-- The literal `{ (): this }` at range `[9, 21)`. -/
def c4lit : TSTypeLiteralNode :=
  { range := (9, 21)
    members := [c4member]
    parentType := some (ParentType.otherParent ("TSTypeAliasDeclaration")) }

/-- Source text `interface Foo { (): this }`. -/
def c5src : List Char := "interface Foo \x7b (): this \x7d".toList

/-- The call signature `(): this` at range `[16, 24)` with return type
`this` at `[20, 24)`. -/
def c5member : TypeElement :=
  { kind := MemberKind.TSCallSignatureDeclaration
    range := (16, 24)
    params := []
    returnType := some (TSNode.typeAnn (18, 24) (TSNode.thisType (20, 24))) }

/-- The declaration `interface Foo { (): this }`. -/
def c5node : TSInterfaceDeclaration :=
  { range := (0, 26)
    id := { name := "Foo", range := (10, 13) }
    typeParameters := none
    extendsClauses := []
    body := [c5member]
    parentType := some (ParentType.otherParent ("Program")) }

/-- Source text `interface Foo { (x: this): void }`. -/
def c6src : List Char := "interface Foo \x7b (x: this): void \x7d".toList

/-- The call signature `(x: this): void` at range `[16, 31)`; the parameter
`x` is annotated `: this` at `[18, 24)` wrapping the `this` token at
`[20, 24)`. -/
def c6member : TypeElement :=
  { kind := MemberKind.TSCallSignatureDeclaration
    range := (16, 31)
    params := [ { typeAnnot := some (TSNode.typeAnn (18, 24)
        (TSNode.thisType (20, 24))) } ]
    returnType := some (TSNode.typeAnn (25, 31)
      (TSNode.otherType ("TSVoidKeyword") (27, 31))) }

/-- The declaration `interface Foo { (x: this): void }`. -/
def c6node : TSInterfaceDeclaration :=
  { range := (0, 33)
    id := { name := "Foo", range := (10, 13) }
    typeParameters := none
    extendsClauses := []
    body := [c6member]
    parentType := some (ParentType.otherParent ("Program")) }

/-- Source text `interface Foo<T> { (x: T): T }`. -/
def c7src : List Char := "interface Foo<T> \x7b (x: T): T \x7d".toList

/-- The call signature `(x: T): T` at range `[19, 28)`; the parameter `x`
is annotated `: T` at `[21, 24)` wrapping the reference `T` at `[23, 24)`;
the return-type annotation `: T` sits at `[25, 28)`. -/
def c7member : TypeElement :=
  { kind := MemberKind.TSCallSignatureDeclaration
    range := (19, 28)
    params := [ { typeAnnot := some (TSNode.typeAnn (21, 24)
        (TSNode.typeRef (23, 24))) } ]
    returnType := some (TSNode.typeAnn (25, 28) (TSNode.typeRef (27, 28))) }

/-- The declaration `interface Foo<T> { (x: T): T }` with its
type-parameter list `<T>` at `[13, 16)`. -/
def c7node : TSInterfaceDeclaration :=
  { range := (0, 30)
    id := { name := "Foo", range := (10, 13) }
    typeParameters := some (13, 16)
    extendsClauses := []
    body := [c7member]
    parentType := some (ParentType.otherParent ("Program")) }

/-- Source text `{ (): void }` standing alone. -/
def c8src : List Char := "\x7b (): void \x7d".toList

/-- The call signature `(): void` at range `[2, 10)`. -/
def c8member : TypeElement :=
  { kind := MemberKind.TSCallSignatureDeclaration
    range := (2, 10)
    params := []
    returnType := some (TSNode.typeAnn (4, 10)
      (TSNode.otherType ("TSVoidKeyword") (6, 10))) }

/-- The literal `{ (): void }` in union position. -/
def c8litUnion : TSTypeLiteralNode :=
  { range := (0, 12)
    members := [c8member]
    parentType := some ParentType.TSUnionType }

/-- The literal `{ (): void }` with no syntactic parent. -/
def c8litBare : TSTypeLiteralNode :=
  { range := (0, 12)
    members := [c8member]
    parentType := none }

/-- Source text `interface Foo { (): (thisArg: string) => this }`. -/
def c10src : List Char :=
  "interface Foo \x7b (): (thisArg: string) => this \x7d".toList

/-- The inner return type `(thisArg: string) => this`: a function type at
`[20, 45)` whose return-type annotation `=> this` at `[37, 45)` wraps the
`this` token at `[41, 45)`. -/
def c10inner : TSNode :=
  TSNode.functionType (20, 45)
    (TSNode.typeAnn (37, 45) (TSNode.thisType (41, 45)))

/-- The call signature `(): (thisArg: string) => this` at range `[16, 45)`. -/
def c10member : TypeElement :=
  { kind := MemberKind.TSCallSignatureDeclaration
    range := (16, 45)
    params := []
    returnType := some (TSNode.typeAnn (18, 45) c10inner) }

/-- The declaration `interface Foo { (): (thisArg: string) => this }`. -/
def c10node : TSInterfaceDeclaration :=
  { range := (0, 47)
    id := { name := "Foo", range := (10, 13) }
    typeParameters := none
    extendsClauses := []
    body := [c10member]
    parentType := some (ParentType.otherParent ("Program")) }

/-- Tokens of `c10node`, led by the `interface` keyword at `[0, 9)`. -/
def c10tokens : List Token :=
  [ { tokType := TokenType.Keyword, value := "interface", range := (0, 9) },
    { tokType := TokenType.otherToken ("Identifier"), value := "Foo",
      range := (10, 13) } ]

/-!
Auxiliary predicates used to state the theorems.
-/

/-- A member's return-type annotation, when written, is an actual
`TSTypeAnnotation` node — true of every tree a conforming parser emits. -/
def memberConforming (m : TypeElement) : Bool :=
  match m.returnType with
  | some (TSNode.typeAnn _ _) => true
  | some _ => false
  | none => true

/-- `k` successive first-occurrence replacements of `this` by `nm` —
the cumulative effect of the parameter loop, one replacement per
self-typed parameter. -/
def applyReplacements (nm : List Char) (k : Nat) (lhs : List Char) : List Char :=
  match k with
  | 0 => lhs
  | k + 1 => applyReplacements nm k (replaceFirst lhs ("this".toList) nm)

/-- Conforming layout of the fix anchor: the type literal starts at or
before its member; for an interface, the `interface` keyword token (when
the token stream has one) starts at or before the member. -/
def fixAnchorLE (tokens : List Token) (node : EnclosingNode)
    (member : TypeElement) : Bool :=
  match node with
  | EnclosingNode.typeLiteral l => decide (l.range.1 ≤ member.range.1)
  | EnclosingNode.interfaceDecl _ =>
    match interfaceKeywordStart tokens with
    | some s => decide (s ≤ member.range.1)
    | none => true

/-- The diagnostic the rule reports on `c1node`
(`interface Foo { (): void }`). -/
def c1diag : Diagnostic :=
  { typeLabel := "Interface"
    sigSuggestion := "type Foo = () => void".toList
    fixRange := (0, 26)
    fixText := "type Foo = () => void".toList }

/-- The return-position substitution as a total function, valid when the
enclosing `id` is present. -/
def substThisReturnTotal (src : List Char) (rt : Option (Nat × Nat))
    (nm : Ident) (rhs : List Char) : List Char :=
  match rt with
  | some r =>
    if jsSlice src r.1 r.2 = "this".toList then
      replaceFirst rhs ("this".toList) (nm.name.toList)
    else rhs
  | none => rhs

/-!
Helper lemmas.
-/

/-- With the enclosing `id` present, the return-position substitution step
equals its total variant. -/
theorem substThisReturn_some (src : List Char) (rt : Option (Nat × Nat))
    (nm : Ident) (rhs : List Char) :
    substThisReturn src rt (some nm) rhs =
      some (substThisReturnTotal src rt nm rhs) := by
  cases rt with
  | none => rfl
  | some r =>
    exact (apply_ite some (jsSlice src r.1 r.2 = "this".toList)
      (replaceFirst rhs ("this".toList) (nm.name.toList)) rhs).symm

/-- With the enclosing `id` present, the return-position substitution step
never faults. -/
theorem substThisReturn_isSome (src : List Char) (rt : Option (Nat × Nat))
    (nm : Ident) (rhs : List Char) :
    ∃ r2, substThisReturn src rt (some nm) rhs = some r2 := by
  cases rt with
  | none => exact ⟨rhs, rfl⟩
  | some r =>
    by_cases h : jsSlice src r.1 r.2 = ['t', 'h', 'i', 's']
    · exact ⟨replaceFirst rhs ("this".toList) (nm.name.toList),
        by simp [substThisReturn, h]⟩
    · exact ⟨rhs, by simp [substThisReturn, h]⟩

/-- With the enclosing `id` present, the parameter loop never faults and
performs exactly one first-occurrence replacement per self-typed
parameter, in order. -/
theorem substThisParams_eq (nm : Ident) (ps : List Param) (lhs : List Char) :
    substThisParams (some nm) ps lhs =
      some (applyReplacements (nm.name.toList)
        ((ps.filter paramHasThisType).length) lhs) := by
  induction ps generalizing lhs with
  | nil => rfl
  | cons p ps ih =>
    by_cases hp : paramHasThisType p
    · simp only [substThisParams, hp, if_pos, List.filter_cons, if_true]
      rw [ih]
      rfl
    · simp only [substThisParams, hp, Bool.false_eq_true, if_false,
        List.filter_cons]
      rw [ih]

/-- On an interface parent whose member return-type annotation is a real
`TSTypeAnnotation` node, `renderSuggestion` never faults. -/
theorem renderSuggestion_interfaceDecl_isSome (src : List Char)
    (call : TypeElement) (d : TSInterfaceDeclaration) (ar : Nat × Nat)
    (ta : TSNode) (h : call.returnType = some (TSNode.typeAnn ar ta)) :
    (renderSuggestion src call (EnclosingNode.interfaceDecl d)).isSome = true := by
  unfold renderSuggestion
  rw [h]
  simp only [TSNode.inner?, parentIdOf, substThisReturn_some, substThisParams_eq]
  cases d.typeParameters <;> simp

/-- On an interface parent carrying a type-parameter list, the rendered
suggestion is the alias header `type <id..typeParams slice> = ` followed by
the assembled function type. -/
theorem renderSuggestion_interfaceDecl_alias (src : List Char)
    (call : TypeElement) (d : TSInterfaceDeclaration) (ar tpr : Nat × Nat)
    (ta : TSNode) (h : call.returnType = some (TSNode.typeAnn ar ta))
    (htp : d.typeParameters = some tpr) :
    ∃ sug, renderSuggestion src call (EnclosingNode.interfaceDecl d) =
      some ("type ".toList ++ jsSlice src d.id.range.1 tpr.2
        ++ " = ".toList ++ sug) := by
  unfold renderSuggestion
  rw [h]
  simp only [TSNode.inner?, parentIdOf, substThisReturn_some,
    substThisParams_eq, htp]
  exact ⟨_, rfl⟩

/-- On an interface parent, with a conforming member and a token stream
containing the `interface` keyword, `checkMember` reports exactly when the
member qualifies. -/
theorem checkMember_interfaceDecl_report_iff (src : List Char)
    (tokens : List Token) (m : TypeElement) (d : TSInterfaceDeclaration)
    (hc : memberConforming m = true)
    (ht : (interfaceKeywordStart tokens).isSome = true) :
    isReport (checkMember src tokens m (EnclosingNode.interfaceDecl d)) = true
      ↔ qualifyingMember m = true := by
  by_cases hq : qualifyingMember m = true
  · simp only [hq, iff_true]
    have hsome : m.returnType.isSome = true := by
      have hq2 := hq
      simp only [qualifyingMember, Bool.and_eq_true] at hq2
      exact hq2.2
    obtain ⟨rt, hrt⟩ := Option.isSome_iff_exists.mp hsome
    have hann : ∃ ar ta, rt = TSNode.typeAnn ar ta := by
      unfold memberConforming at hc
      rw [hrt] at hc
      cases rt <;> simp_all
    obtain ⟨ar, ta, rfl⟩ := hann
    obtain ⟨s, hs⟩ := Option.isSome_iff_exists.mp
      (renderSuggestion_interfaceDecl_isSome src m d ar ta hrt)
    obtain ⟨fs, hfs⟩ := Option.isSome_iff_exists.mp ht
    unfold checkMember
    rw [if_pos hq, hs, hfs]
    rfl
  · simp only [hq, iff_false]
    unfold checkMember
    rw [if_neg hq]
    simp [isReport]

/-- `hasOneSupertype` is false exactly for the zero-extends and
sole-`extends Function` configurations. -/
theorem hasOneSupertype_eq_false (node : TSInterfaceDeclaration)
    (h : node.extendsClauses = []
      ∨ ∃ e, node.extendsClauses = [e]
          ∧ e.expression = ExprKind.Identifier ("Function")) :
    hasOneSupertype node = false := by
  rcases h with he | ⟨e, he, hee⟩
  · unfold hasOneSupertype
    rw [he]
  · unfold hasOneSupertype
    rw [he]
    simp [hee]

/-- `hasOneSupertype` is true for a sole extends clause not referencing the
bare identifier `Function`, and for two or more extends clauses. -/
theorem hasOneSupertype_eq_true (node : TSInterfaceDeclaration)
    (h : (∃ e, node.extendsClauses = [e]
          ∧ e.expression ≠ ExprKind.Identifier ("Function"))
      ∨ 2 ≤ node.extendsClauses.length) :
    hasOneSupertype node = true := by
  rcases h with ⟨e, he, hne⟩ | hlen
  · unfold hasOneSupertype
    rw [he]
    cases hee : e.expression with
    | Identifier nm =>
      have hnm : nm ≠ "Function" := by
        intro hcontra
        exact hne (by rw [hee, hcontra])
      simp [hee, hnm]
    | otherExpr k => simp [hee]
  · unfold hasOneSupertype
    cases hext : node.extendsClauses with
    | nil => rw [hext] at hlen; simp at hlen
    | cons a l =>
      cases l with
      | nil => rw [hext] at hlen; simp at hlen
      | cons b l2 => rfl

/-!
Claim theorems.
-/

/-- C1: the claim states that a named interface with zero extends clauses
is never matched.  It is false: `interface Foo { (): void }` has zero
extends clauses, yet the handler reports a diagnostic (the zero-supertype
case is exactly one of the configurations `hasOneSupertype` lets through). -/
theorem C1_counterexample :
    c1node.extendsClauses = []
      ∧ isReport (tsInterfaceDeclarationHandler c1src c1tokens c1node) = true := by
  constructor
  · rfl
  · decide

/-- C1 (amended): for every named-interface node with zero extends
clauses, or with exactly one extends clause whose expression is the bare
identifier `Function`, the Matcher matches the node if and only if the
interface body has exactly one member and that member is a call or
construct signature with an explicit return-type annotation.  (The
hypotheses `hconf` and `htok` say the tree is conforming: written
return-type annotations are `TSTypeAnnotation` nodes and the declaration's
token stream contains the `interface` keyword.) -/
theorem C1_amended_matcher (src : List Char) (tokens : List Token)
    (node : TSInterfaceDeclaration)
    (hext : node.extendsClauses = []
      ∨ ∃ e, node.extendsClauses = [e]
          ∧ e.expression = ExprKind.Identifier ("Function"))
    (hconf : node.body.all memberConforming = true)
    (htok : (interfaceKeywordStart tokens).isSome = true) :
    isReport (tsInterfaceDeclarationHandler src tokens node) = true
      ↔ ∃ m, node.body = [m] ∧ qualifyingMember m = true := by
  have hs : hasOneSupertype node = false := hasOneSupertype_eq_false node hext
  cases hb : node.body with
  | nil =>
    have hnr : tsInterfaceDeclarationHandler src tokens node = Outcome.noReport := by
      unfold tsInterfaceDeclarationHandler
      rw [hs, hb]
      rfl
    rw [hnr]
    simp [isReport]
  | cons m rest =>
    cases rest with
    | nil =>
      have hcm : memberConforming m = true := by
        rw [hb] at hconf
        simpa using hconf
      have hred : tsInterfaceDeclarationHandler src tokens node =
          checkMember src tokens m (EnclosingNode.interfaceDecl node) := by
        unfold tsInterfaceDeclarationHandler
        rw [hs, hb]
        rfl
      rw [hred, checkMember_interfaceDecl_report_iff src tokens m node hcm htok]
      constructor
      · intro hq
        exact ⟨m, rfl, hq⟩
      · rintro ⟨m2, hm2, hq2⟩
        have hm : m = m2 := by
          simpa using hm2
        rw [hm]
        exact hq2
    | cons m2 rest2 =>
      have hnr : tsInterfaceDeclarationHandler src tokens node = Outcome.noReport := by
        unfold tsInterfaceDeclarationHandler
        rw [hs, hb]
        rfl
      rw [hnr]
      simp [isReport]

/-- C1 amended, instantiated: `interface Foo { (): void }` (zero extends
clauses) is matched, and its sole member indeed qualifies. -/
theorem C1_amended_matcher_witness :
    isReport (tsInterfaceDeclarationHandler c1src c1tokens c1node) = true
      ↔ ∃ m, c1node.body = [m] ∧ qualifyingMember m = true :=
  C1_amended_matcher c1src c1tokens c1node (Or.inl rfl) (by decide) (by decide)

/-- C2: the claim states that a named interface with exactly one extends
clause referencing an identifier other than `Function` is matched whenever
its sole member is a qualifying signature.  It is false:
`interface Foo extends Bar { (): void }` has a qualifying sole member, yet
the handler stays silent (`hasOneSupertype` rejects it). -/
theorem C2_counterexample :
    (∃ e, c2node.extendsClauses = [e]
        ∧ e.expression ≠ ExprKind.Identifier ("Function"))
      ∧ c2node.body = [c2member]
      ∧ qualifyingMember c2member = true
      ∧ tsInterfaceDeclarationHandler c2src c2tokens c2node = Outcome.noReport := by
  refine ⟨⟨c2heritage, rfl, by decide⟩, rfl, by decide, by decide⟩

/-- C2 (amended): a named interface with exactly one extends clause whose
expression is not the bare identifier `Function`, or with two or more
extends clauses, is never matched — no diagnostic regardless of member
count or member shape. -/
theorem C2_amended_matcher (src : List Char) (tokens : List Token)
    (node : TSInterfaceDeclaration)
    (hext : (∃ e, node.extendsClauses = [e]
          ∧ e.expression ≠ ExprKind.Identifier ("Function"))
      ∨ 2 ≤ node.extendsClauses.length) :
    tsInterfaceDeclarationHandler src tokens node = Outcome.noReport := by
  have hs : hasOneSupertype node = true := hasOneSupertype_eq_true node hext
  unfold tsInterfaceDeclarationHandler
  rw [hs]
  rfl

/-- C2 amended, instantiated at `interface Foo extends Bar { (): void }`. -/
theorem C2_amended_matcher_witness :
    tsInterfaceDeclarationHandler c2src c2tokens c2node = Outcome.noReport :=
  C2_amended_matcher c2src c2tokens c2node (Or.inl ⟨c2heritage, rfl, by decide⟩)

/-- C3: the claim says an object-type literal with one member is reported
iff the member is a call/construct signature with a return-type
annotation.  The iff is the spec's clear intent, but the code breaks it at
`type X = { (x: this): void }`: the sole member qualifies, yet evaluating
`parent.id.name` on the literal (whose `id` is `undefined`) throws, so no
diagnostic is emitted — the handler crashes instead of reporting. -/
theorem C3_literal_crash :
    c3lit.members = [c3member]
  ∧ qualifyingMember c3member = true
  ∧ tsTypeLiteralHandler c3src c3lit = Outcome.crash := by
  refine ⟨rfl, by decide, by decide⟩

/-- C4: the claim says the analysis never crashes on conforming input, in
particular that `renderSuggestion` must not fault when the enclosing
declaration has no name while a `this` substitution triggers.  The code
breaks it: on `type X = { (): this }` the resolved return type is the
`this` token, the substitution triggers, and `parent.id.name` faults. -/
theorem C4_no_crash_refuted :
    qualifyingMember c4member = true
  ∧ tsTypeLiteralHandler c4src c4lit = Outcome.crash := by
  refine ⟨by decide, by decide⟩

/-- C5: self-type resolution in return position handles a directly written
`this`, a `this` under one type-annotation wrapper, and a `this` as the
return type of one nested function type; a function type nested inside a
function type is never resolved, however deep its contents.  On
`interface Foo { (): this }` the produced suggestion is exactly
`type Foo = () => Foo`. -/
theorem C5_self_type_resolution :
    (∀ r : Nat × Nat, getReturnType (TSNode.thisType r) = some r)
  ∧ (∀ ar r : Nat × Nat,
      getReturnType (TSNode.typeAnn ar (TSNode.thisType r)) = some r)
  ∧ (∀ fr ar r : Nat × Nat,
      getReturnType
        (TSNode.functionType fr (TSNode.typeAnn ar (TSNode.thisType r))) = some r)
  ∧ (∀ (fr ar fr2 : Nat × Nat) (rt2 : TSNode),
      getReturnType
        (TSNode.functionType fr
          (TSNode.typeAnn ar (TSNode.functionType fr2 rt2))) = none)
  ∧ renderSuggestion c5src c5member (EnclosingNode.interfaceDecl c5node) =
      some ("type Foo = () => Foo".toList) := by
  refine ⟨fun r => rfl, fun ar r => rfl, fun fr ar r => rfl,
    fun fr ar fr2 rt2 => rfl, by decide⟩

/-- C6: each parameter whose declared type is exactly `this` triggers one
first-occurrence replacement of `this` by the declaration's name in the
parameter-list slice — the loop performs exactly as many replacements as
there are self-typed parameters.  On `interface Foo { (x: this): void }`
the suggestion rewrites the parameter occurrence to `Foo`. -/
theorem C6_param_self_substitution :
    (∀ (nm : Ident) (ps : List Param) (lhs : List Char),
      substThisParams (some nm) ps lhs =
        some (applyReplacements (nm.name.toList)
          ((ps.filter paramHasThisType).length) lhs))
  ∧ renderSuggestion c6src c6member (EnclosingNode.interfaceDecl c6node) =
      some ("type Foo = (x: Foo) => void".toList) :=
  ⟨substThisParams_eq, by decide⟩

/-- C7: a matched generic interface yields a type alias whose header reuses
the source text from the interface name through the end of the
type-parameter list, sliced verbatim.  On `interface Foo<T> { (x: T): T }`
the suggestion is exactly `type Foo<T> = (x: T) => T`. -/
theorem C7_generic_preservation :
    (∀ (src : List Char) (call : TypeElement) (d : TSInterfaceDeclaration)
        (ar tpr : Nat × Nat) (ta : TSNode),
      call.returnType = some (TSNode.typeAnn ar ta) →
      d.typeParameters = some tpr →
      ∃ sug, renderSuggestion src call (EnclosingNode.interfaceDecl d) =
        some ("type ".toList ++ jsSlice src d.id.range.1 tpr.2
          ++ " = ".toList ++ sug))
  ∧ renderSuggestion c7src c7member (EnclosingNode.interfaceDecl c7node) =
      some ("type Foo<T> = (x: T) => T".toList) :=
  ⟨fun src call d ar tpr ta h htp =>
    renderSuggestion_interfaceDecl_alias src call d ar tpr ta h htp, by decide⟩

/-- C7, instantiated at `interface Foo<T> { (x: T): T }`: the rendered
alias header slices `Foo<T>` (range `[10, 16)`) from the source. -/
theorem C7_generic_preservation_witness :
    ∃ sug, renderSuggestion c7src c7member (EnclosingNode.interfaceDecl c7node) =
      some ("type ".toList ++ jsSlice c7src 10 16 ++ " = ".toList ++ sug) :=
  C7_generic_preservation.1 c7src c7member c7node (25, 28) (13, 16)
    (TSNode.typeRef (27, 28)) rfl rfl

/-- C8: the assembled suggestion is parenthesized iff the immediate
syntactic parent of the enclosing construct is a union, intersection or
array type; with any other parent, or no parent, it is not.  Concretely,
`{ (): void }` in union position renders `(() => void)`, and bare renders
`() => void`. -/
theorem C8_parenthesization :
    (∀ p : Option ParentType, shouldWrapSuggestion p = true ↔
      (p = some ParentType.TSUnionType ∨ p = some ParentType.TSIntersectionType
        ∨ p = some ParentType.TSArrayType))
  ∧ renderSuggestion c8src c8member (EnclosingNode.typeLiteral c8litUnion) =
      some ("(() => void)".toList)
  ∧ renderSuggestion c8src c8member (EnclosingNode.typeLiteral c8litBare) =
      some ("() => void".toList) := by
  refine ⟨?_, by decide, by decide⟩
  intro p
  rcases p with _ | k
  · simp [shouldWrapSuggestion]
  · cases k <;> simp [shouldWrapSuggestion]

/-- C9: every reported fix range starts at or before the member's start —
the literal's own start, or the `interface` keyword token's start, both at
or before the member under the conforming layout `fixAnchorLE` — and ends
exactly at the end of the enclosing node. -/
theorem C9_fix_range_encloses (src : List Char) (tokens : List Token)
    (member : TypeElement) (node : EnclosingNode) (d : Diagnostic)
    (hwf : fixAnchorLE tokens node member = true)
    (hrep : checkMember src tokens member node = Outcome.report d) :
    d.fixRange.1 ≤ member.range.1 ∧ d.fixRange.2 = (rangeOf node).2 := by
  unfold checkMember at hrep
  by_cases hq : qualifyingMember member = true
  · rw [if_pos hq] at hrep
    cases hrs : renderSuggestion src member node with
    | none =>
      rw [hrs] at hrep
      exact Outcome.noConfusion hrep
    | some s =>
      rw [hrs] at hrep
      cases node with
      | typeLiteral l =>
        have hrep2 : Outcome.report
            { typeLabel := "Type literal", sigSuggestion := s,
              fixRange := (l.range.1, (rangeOf (EnclosingNode.typeLiteral l)).2),
              fixText := s } = Outcome.report d := hrep
        injection hrep2 with hd
        rw [← hd]
        refine ⟨?_, rfl⟩
        simpa [fixAnchorLE] using hwf
      | interfaceDecl dd =>
        cases hks : interfaceKeywordStart tokens with
        | none =>
          rw [hks] at hrep
          exact Outcome.noConfusion hrep
        | some fs =>
          rw [hks] at hrep
          have hrep2 : Outcome.report
              { typeLabel := "Interface", sigSuggestion := s,
                fixRange := (fs, (rangeOf (EnclosingNode.interfaceDecl dd)).2),
                fixText := s } = Outcome.report d := hrep
          injection hrep2 with hd
          rw [← hd]
          refine ⟨?_, rfl⟩
          have hwf2 := hwf
          simp only [fixAnchorLE, hks, decide_eq_true_eq] at hwf2
          exact hwf2
  · rw [if_neg hq] at hrep
    exact Outcome.noConfusion hrep

/-- C9, instantiated at `interface Foo { (): void }`: the reported fix
range `[0, 26)` starts at the `interface` keyword, before the member at
offset 16, and ends at the declaration's end. -/
theorem C9_fix_range_encloses_witness :
    c1diag.fixRange.1 ≤ c1member.range.1
  ∧ c1diag.fixRange.2 = (rangeOf (EnclosingNode.interfaceDecl c1node)).2 :=
  C9_fix_range_encloses c1src c1tokens c1member
    (EnclosingNode.interfaceDecl c1node) c1diag (by decide) (by decide)

/-- C10: the return-position substitution is a plain first-occurrence
substring replacement over the return-type text, not a replacement at the
resolved token's range.  On
`interface Foo { (): (thisArg: string) => this }` the resolver picks the
trailing `this` token (range `[41, 45)`), yet the replacement hits the
`this` inside `thisArg`, producing `FooArg` and leaving the `this` token
untouched. -/
theorem C10_textual_replacement :
    getReturnType c10inner = some (41, 45)
  ∧ jsSlice c10src 41 45 = "this".toList
  ∧ tsInterfaceDeclarationHandler c10src c10tokens c10node =
      Outcome.report
        { typeLabel := "Interface"
          sigSuggestion := "type Foo = () => (FooArg: string) => this".toList
          fixRange := (0, 47)
          fixText := "type Foo = () => (FooArg: string) => this".toList } := by
  refine ⟨rfl, by decide, by decide⟩
